import Mathlib

/-!
# Verification of the Oracle–Meilisearch sync core

Shallow embedding of the synchronization engine (`src/sync_engine.py`),
the scheduler (`src/scheduler.py`) and the persisted sync state, together
with proofs of the specification claims about them.

Conventions:
* Python `datetime` values are modelled by the structure `DT` below, with
  Python's field-validity bounds captured by `DT.Valid`.
* Fallible Python calls are modelled with `Except PErr`; a raised exception
  is an `.error` value that callers propagate unless the source wraps the
  call in `try`/`except`.
* External collaborators (the Oracle connection's query method, the
  Meilisearch index operations, the wall clock) are inputs to the embedded
  functions: a collaborator's behaviour on one invocation is a parameter.
-/

/-- Exceptions that the embedded code can raise, mirroring the Python
exception classes that actually occur on the modelled paths. -/
inductive PErr where
  | attributeError (msg : String)
  | valueError (msg : String)
  | typeError (msg : String)
  | runtime (msg : String)
deriving Repr, DecidableEq

/-- A Python `datetime.datetime`: year, month, day, hour, minute, second,
microsecond. -/
structure DT where
  year : Nat
  month : Nat
  day : Nat
  hour : Nat
  minute : Nat
  second : Nat
  microsecond : Nat
deriving Repr, DecidableEq

/-- Number of days in a month, as Python's `datetime` validates it
(Gregorian calendar with leap years). -/
def daysInMonth (y m : Nat) : Nat :=
  if m = 2 then
    if y % 4 = 0 && (y % 100 ≠ 0 || y % 400 = 0) then 29 else 28
  else if m = 4 || m = 6 || m = 9 || m = 11 then 30
  else 31

/-- The field bounds Python's `datetime` constructor enforces. -/
def DT.Valid (d : DT) : Prop :=
  1 ≤ d.year ∧ d.year ≤ 9999 ∧
  1 ≤ d.month ∧ d.month ≤ 12 ∧
  1 ≤ d.day ∧ d.day ≤ daysInMonth d.year d.month ∧
  d.hour ≤ 23 ∧ d.minute ≤ 59 ∧ d.second ≤ 59 ∧ d.microsecond ≤ 999999

instance (d : DT) : Decidable d.Valid := by
  unfold DT.Valid; infer_instance

/-- Python `datetime` comparison is lexicographic on the fields; for valid
values this is equivalent to comparing this mixed-radix key. -/
def DT.key (d : DT) : Nat :=
  d.microsecond +
    1000000 * (d.second + 60 * (d.minute + 60 * (d.hour + 24 * (d.day + 32 * (d.month + 13 * d.year)))))

/-- `a < b` for Python datetimes (valid values). -/
def DT.lt (a b : DT) : Prop := a.key < b.key

instance (a b : DT) : Decidable (DT.lt a b) := by
  unfold DT.lt; infer_instance

/-- The ASCII digit character for `k < 10`. -/
def digChar (k : Nat) : Char := Char.ofNat (48 + k)

/-- Numeric value of an ASCII digit character. -/
def dVal (c : Char) : Nat := c.toNat - 48

/-- Is `c` an ASCII digit? -/
def isDig (c : Char) : Bool := 48 ≤ c.toNat && c.toNat ≤ 57

/-- Two-digit zero-padded decimal rendering (`%02d`), as characters. -/
def pad2 (n : Nat) : List Char := [digChar (n / 10), digChar (n % 10)]

/-- Four-digit zero-padded decimal rendering (`%04d`), as characters. -/
def pad4 (n : Nat) : List Char :=
  [digChar (n / 1000), digChar (n / 100 % 10), digChar (n / 10 % 10), digChar (n % 10)]

/-- Six-digit zero-padded decimal rendering (`%06d`), as characters. -/
def pad6 (n : Nat) : List Char :=
  [digChar (n / 100000), digChar (n / 10000 % 10), digChar (n / 1000 % 10),
   digChar (n / 100 % 10), digChar (n / 10 % 10), digChar (n % 10)]

/-- The character sequence of `datetime.isoformat()`:
`YYYY-MM-DDTHH:MM:SS` with `.ffffff` appended exactly when the
microsecond field is nonzero. -/
def isoChars (d : DT) : List Char :=
  pad4 d.year ++ ['-'] ++ pad2 d.month ++ ['-'] ++ pad2 d.day ++ ['T'] ++
    pad2 d.hour ++ [':'] ++ pad2 d.minute ++ [':'] ++ pad2 d.second ++
    (if d.microsecond = 0 then [] else ['.'] ++ pad6 d.microsecond)

/-- `datetime.isoformat()` as a string. -/
def isoFormat (d : DT) : String := String.mk (isoChars d)

/-- Decode two ASCII digit characters. -/
def parse2 (c1 c2 : Char) : Option Nat :=
  if isDig c1 && isDig c2 then some (dVal c1 * 10 + dVal c2) else none

/-- Decode four ASCII digit characters. -/
def parse4 (c1 c2 c3 c4 : Char) : Option Nat :=
  if isDig c1 && isDig c2 && isDig c3 && isDig c4 then
    some (dVal c1 * 1000 + dVal c2 * 100 + dVal c3 * 10 + dVal c4)
  else none

/-- Decode six ASCII digit characters. -/
def parse6 (c1 c2 c3 c4 c5 c6 : Char) : Option Nat :=
  if isDig c1 && isDig c2 && isDig c3 && isDig c4 && isDig c5 && isDig c6 then
    some (dVal c1 * 100000 + dVal c2 * 10000 + dVal c3 * 1000 +
      dVal c4 * 100 + dVal c5 * 10 + dVal c6)
  else none

/-- `datetime.fromisoformat` on the character list of an
`isoformat()`-produced string: fixed-position fields with an optional
six-digit fraction, and the same range validation as the constructor. -/
def parseIsoChars (cs : List Char) : Option DT :=
  match cs with
  | y1 :: y2 :: y3 :: y4 :: s1 :: mo1 :: mo2 :: s2 :: d1 :: d2 :: s3 ::
      h1 :: h2 :: s4 :: mi1 :: mi2 :: s5 :: se1 :: se2 :: rest =>
    if s1 = '-' ∧ s2 = '-' ∧ s3 = 'T' ∧ s4 = ':' ∧ s5 = ':' then
      match parse4 y1 y2 y3 y4, parse2 mo1 mo2, parse2 d1 d2,
          parse2 h1 h2, parse2 mi1 mi2, parse2 se1 se2 with
      | some y, some mo, some dd, some h, some mi, some se =>
        match rest with
        | [] =>
          let d : DT := ⟨y, mo, dd, h, mi, se, 0⟩
          if d.Valid then some d else none
        | dot :: u1 :: u2 :: u3 :: u4 :: u5 :: u6 :: [] =>
          if dot = '.' then
            match parse6 u1 u2 u3 u4 u5 u6 with
            | some u =>
              let d : DT := ⟨y, mo, dd, h, mi, se, u⟩
              if d.Valid then some d else none
            | none => none
          else none
        | _ => none
      | _, _, _, _, _, _ => none
    else none
  | _ => none

/-- `datetime.fromisoformat` on a string. -/
def parseIso (s : String) : Option DT := parseIsoChars s.data

-- Round-trip lemmas for the digit codecs.

theorem isDig_digChar {k : Nat} (h : k < 10) : isDig (digChar k) = true := by
  interval_cases k <;> decide

theorem dVal_digChar {k : Nat} (h : k < 10) : dVal (digChar k) = k := by
  interval_cases k <;> decide

theorem parse2_pad2 {n : Nat} (h : n < 100) :
    parse2 (digChar (n / 10)) (digChar (n % 10)) = some n := by
  have h1 : n / 10 < 10 := by omega
  have h2 : n % 10 < 10 := by omega
  simp [parse2, isDig_digChar h1, isDig_digChar h2, dVal_digChar h1, dVal_digChar h2]
  omega

theorem parse4_pad4 {n : Nat} (h : n < 10000) :
    parse4 (digChar (n / 1000)) (digChar (n / 100 % 10)) (digChar (n / 10 % 10))
      (digChar (n % 10)) = some n := by
  have h1 : n / 1000 < 10 := by omega
  have h2 : n / 100 % 10 < 10 := by omega
  have h3 : n / 10 % 10 < 10 := by omega
  have h4 : n % 10 < 10 := by omega
  simp [parse4, isDig_digChar h1, isDig_digChar h2, isDig_digChar h3, isDig_digChar h4,
    dVal_digChar h1, dVal_digChar h2, dVal_digChar h3, dVal_digChar h4]
  omega

theorem parse6_pad6 {n : Nat} (h : n < 1000000) :
    parse6 (digChar (n / 100000)) (digChar (n / 10000 % 10)) (digChar (n / 1000 % 10))
      (digChar (n / 100 % 10)) (digChar (n / 10 % 10)) (digChar (n % 10)) = some n := by
  have h1 : n / 100000 < 10 := by omega
  have h2 : n / 10000 % 10 < 10 := by omega
  have h3 : n / 1000 % 10 < 10 := by omega
  have h4 : n / 100 % 10 < 10 := by omega
  have h5 : n / 10 % 10 < 10 := by omega
  have h6 : n % 10 < 10 := by omega
  simp [parse6, isDig_digChar h1, isDig_digChar h2, isDig_digChar h3, isDig_digChar h4,
    isDig_digChar h5, isDig_digChar h6, dVal_digChar h1, dVal_digChar h2, dVal_digChar h3,
    dVal_digChar h4, dVal_digChar h5, dVal_digChar h6]
  omega

/-- `fromisoformat` inverts `isoformat` on every valid datetime. -/
theorem parseIso_isoFormat {d : DT} (h : d.Valid) : parseIso (isoFormat d) = some d := by
  obtain ⟨hy1, hy2, hm1, hm2, hd1, hd2, hh, hmi, hse, hu⟩ := h
  have hvalid : d.Valid := ⟨hy1, hy2, hm1, hm2, hd1, hd2, hh, hmi, hse, hu⟩
  have hy : d.year < 10000 := by omega
  have hmo : d.month < 100 := by omega
  have hdd : d.day < 100 := by
    have : daysInMonth d.year d.month ≤ 31 := by
      unfold daysInMonth; split <;> [split <;> omega; (split <;> omega)]
    omega
  have hho : d.hour < 100 := by omega
  have hmin : d.minute < 100 := by omega
  have hsec : d.second < 100 := by omega
  have humic : d.microsecond < 1000000 := by omega
  have hdata : parseIso (isoFormat d) = parseIsoChars (isoChars d) := rfl
  rw [hdata]
  rcases Nat.eq_zero_or_pos d.microsecond with hu0 | hupos
  · have heta : (⟨d.year, d.month, d.day, d.hour, d.minute, d.second, 0⟩ : DT) = d := by
      rw [← hu0]
    simp only [isoChars, pad4, pad2, pad6, hu0, if_pos rfl,
      List.append_assoc, List.cons_append, List.nil_append, List.singleton_append]
    simp only [parseIsoChars]
    simp [parse4_pad4 hy, parse2_pad2 hmo, parse2_pad2 hdd, parse2_pad2 hho,
      parse2_pad2 hmin, parse2_pad2 hsec, heta, hvalid]
  · have hune : d.microsecond ≠ 0 := by omega
    have heta : (⟨d.year, d.month, d.day, d.hour, d.minute, d.second, d.microsecond⟩ : DT) = d :=
      rfl
    simp only [isoChars, pad4, pad2, pad6, if_neg hune,
      List.append_assoc, List.cons_append, List.nil_append, List.singleton_append]
    simp only [parseIsoChars]
    simp [parse4_pad4 hy, parse2_pad2 hmo, parse2_pad2 hdd, parse2_pad2 hho,
      parse2_pad2 hmin, parse2_pad2 hsec, parse6_pad6 humic, heta, hvalid]

/-! ## Sync state store (`SyncEngine.__init__`, `save_last_sync_timestamp`,
`get_last_sync_timestamp`) -/

/-- The mutable state a `SyncEngine` instance owns:
`self._last_sync_timestamps` (a dict, modelled as an association list in
insertion order) and `self._sync_history`. -/
structure Engine where
  last_sync_timestamps : List (String × DT)
  sync_history : List (String × List (String × String))
deriving Repr, DecidableEq

/-- `SyncEngine(oracle_config, meilisearch_config)`: both maps start empty. -/
def SyncEngine.init : Engine := ⟨[], []⟩

/-- Python dict assignment `d[k] = v`: replace in place if the key exists,
otherwise append. -/
def dictSet (l : List (String × DT)) (k : String) (v : DT) : List (String × DT) :=
  match l with
  | [] => [(k, v)]
  | (k', v') :: rest => if k' = k then (k, v) :: rest else (k', v') :: dictSet rest k v

/-- `save_last_sync_timestamp(table_name, timestamp)`:
`self._last_sync_timestamps[table_name] = timestamp`. -/
def save_last_sync_timestamp (e : Engine) (table_name : String) (timestamp : DT) : Engine :=
  { e with last_sync_timestamps := dictSet e.last_sync_timestamps table_name timestamp }

/-- `get_last_sync_timestamp(table_name)`:
`self._last_sync_timestamps.get(table_name)` (None when absent). -/
def get_last_sync_timestamp (e : Engine) (table_name : String) : Option DT :=
  (e.last_sync_timestamps.find? (fun p => p.1 = table_name)).map (·.2)

theorem dictSet_find?_self (l : List (String × DT)) (k : String) (v : DT) :
    (dictSet l k v).find? (fun p => p.1 = k) = some (k, v) := by
  induction l with
  | nil => simp [dictSet]
  | cons hd tl ih =>
    obtain ⟨k', v'⟩ := hd
    by_cases h : k' = k
    · simp [dictSet, h]
    · simp [dictSet, h, List.find?, ih]

theorem get_after_save (e : Engine) (t : String) (ts : DT) :
    get_last_sync_timestamp (save_last_sync_timestamp e t ts) t = some ts := by
  simp [get_last_sync_timestamp, save_last_sync_timestamp, dictSet_find?_self]

/-! ## Sync state persistence

`persist_sync_state` and `load_sync_state` are called by the CLI driver and
exercised by `tests/test_sync_engine.py`, but their definitions are not part
of the `src/` tree; they are modelled from the spec below. -/

/-- Modelled from the spec: `persist_sync_state()` — missing from `src/`;
"serialize the entire watermark map to a structured file (table name →
ISO-8601 timestamp text)", with overwrite semantics. The file contents are
the returned record list. -/
def persist_sync_state (e : Engine) : List (String × String) :=
  e.last_sync_timestamps.map (fun p => (p.1, isoFormat p.2))

/-- Modelled from the spec: `load_sync_state()` — missing from `src/`;
"fully replace in-memory state on load": parse every `table → ISO-8601 text`
record of the file and replace the watermark map wholesale. An unparsable
timestamp raises (as `datetime.fromisoformat` would). -/
def load_sync_state (e : Engine) (file : List (String × String)) : Except PErr Engine :=
  match file.mapM (fun p => (parseIso p.2).map (fun d => (p.1, d))) with
  | some ws => .ok { e with last_sync_timestamps := ws }
  | none => .error (.valueError "Invalid isoformat string")

/-- All stored watermarks are real datetimes (Python invariant: only
`datetime` values ever enter the map). -/
def Engine.ValidState (e : Engine) : Prop :=
  ∀ p ∈ e.last_sync_timestamps, DT.Valid p.2

theorem dictSet_valid {l : List (String × DT)} {k : String} {v : DT}
    (hl : ∀ p ∈ l, DT.Valid p.2) (hv : v.Valid) :
    ∀ p ∈ dictSet l k v, DT.Valid p.2 := by
  induction l with
  | nil => simpa [dictSet] using hv
  | cons hd tl ih =>
    obtain ⟨k', v'⟩ := hd
    by_cases h : k' = k
    · simp only [dictSet, if_pos h]
      intro p hp
      rcases List.mem_cons.mp hp with hp | hp
      · simpa [hp] using hv
      · exact hl p (List.mem_cons.mpr (Or.inr hp))
    · simp only [dictSet, if_neg h]
      intro p hp
      rcases List.mem_cons.mp hp with hp | hp
      · exact hl p (List.mem_cons.mpr (Or.inl hp))
      · exact ih (fun q hq => hl q (List.mem_cons.mpr (Or.inr hq))) p hp

theorem mapM_parse_map {l : List (String × DT)} (h : ∀ p ∈ l, DT.Valid p.2) :
    (l.map (fun p => (p.1, isoFormat p.2))).mapM
      (fun p => (parseIso p.2).map (fun d => (p.1, d))) = some l := by
  induction l with
  | nil => rfl
  | cons hd tl ih =>
    have hhd : parseIso (isoFormat hd.2) = some hd.2 :=
      parseIso_isoFormat (h hd (by simp))
    have ihtl := ih (fun p hp => h p (by simp [hp]))
    simp only [List.map_cons, List.mapM_cons, hhd, ihtl, Option.map_some]
    rfl

/-- Loading a persisted state reproduces the watermark map exactly. -/
theorem load_persist_roundtrip {e : Engine} (h : e.ValidState) (fresh : Engine) :
    load_sync_state fresh (persist_sync_state e) =
      .ok { fresh with last_sync_timestamps := e.last_sync_timestamps } := by
  unfold load_sync_state persist_sync_state
  rw [mapM_parse_map h]

/-! ## Extraction, transformation and load (`SyncEngine` operations)

The Oracle connection's `fetch_as_dict_with_iso_dates` and the Meilisearch
index operations are collaborators; each embedded operation takes the
collaborator's behaviour as a function argument. A `Row` is an extracted
record (opaque here: nothing in the verified logic inspects its fields). -/

/-- An extracted record / Meilisearch document. -/
structure Row where
  fields : List (String × String)
deriving Repr, DecidableEq

/-- `extract_from_oracle(table_name)`: build `SELECT * FROM {table_name}`
and fetch; `fetch` is the collaborator
`OracleConnection.fetch_as_dict_with_iso_dates`. -/
def extract_from_oracle (fetch : String → Except PErr (List Row)) (table_name : String) :
    Except PErr (List Row) :=
  fetch ("SELECT * FROM " ++ table_name)

/-- `datetime.strftime('%Y-%m-%d %H:%M:%S')`. -/
def strftimeOracle (d : DT) : String :=
  String.mk (pad4 d.year ++ ['-'] ++ pad2 d.month ++ ['-'] ++ pad2 d.day ++ [' '] ++
    pad2 d.hour ++ [':'] ++ pad2 d.minute ++ [':'] ++ pad2 d.second)

/-- The query text `extract_changed_records` builds. -/
def changedRecordsQuery (table_name modified_column : String) (ts : DT) : String :=
  "SELECT * FROM " ++ table_name ++ " WHERE " ++ modified_column ++
    " > TO_TIMESTAMP('" ++ strftimeOracle ts ++ "', 'YYYY-MM-DD HH24:MI:SS')"

/-- `extract_changed_records(table_name, modified_column, last_sync_timestamp)`.
The first statement is `last_sync_timestamp.strftime(...)`: when the caller
passed `None` (no stored watermark), this raises
`AttributeError: 'NoneType' object has no attribute 'strftime'` before any
query is built or issued. -/
def extract_changed_records (fetch : String → Except PErr (List Row))
    (table_name modified_column : String) (last_sync_timestamp : Option DT) :
    Except PErr (List Row) :=
  match last_sync_timestamp with
  | none => .error (.attributeError "'NoneType' object has no attribute 'strftime'")
  | some ts => fetch (changedRecordsQuery table_name modified_column ts)

/-- `transform_to_documents(data, primary_key)`: identity pass-through. -/
def transform_to_documents (data : List Row) (_primary_key : String) : List Row :=
  data

/-- Result dict of `full_sync`. -/
structure FullSyncRes where
  success : Bool
  oracle_count : Nat
  meilisearch_count : Nat
deriving Repr, DecidableEq

/-- Collaborator behaviour for one Meilisearch-touching sync operation:
outcomes of the index lifecycle calls, of each document write, and of the
stats read. Writes are indexed by invocation number so the target may
succeed or fail per call. -/
structure MeiliOps where
  index_exists : Bool
  delete_index : Except PErr Unit
  create_index : Except PErr Unit
  add_documents : Nat → List Row → Except PErr Unit
  update_documents : List Row → Except PErr Unit
  stats_count : Except PErr Nat
deriving Inhabited

/-- The recreate-index preamble shared by `full_sync` and
`full_sync_batch`: `if recreate_index: delete if exists, then create`. -/
def recreatePreamble (ops : MeiliOps) (recreate_index : Bool) : Except PErr Unit :=
  if recreate_index then do
    (if ops.index_exists then ops.delete_index else pure ())
    ops.create_index
  else pure ()

/-- `full_sync(table_name, primary_key, recreate_index=False)`: optional
recreate, extract everything, transform, one batched insert, read back the
target count. The `try`/`except` re-raises, so every exception propagates
unchanged. -/
def full_sync (fetch : String → Except PErr (List Row)) (ops : MeiliOps)
    (table_name primary_key : String) (recreate_index : Bool) :
    Except PErr FullSyncRes := do
  recreatePreamble ops recreate_index
  let oracle_data ← extract_from_oracle fetch table_name
  let oracle_count := oracle_data.length
  let documents := transform_to_documents oracle_data primary_key
  ops.add_documents 0 documents
  let meilisearch_count ← ops.stats_count
  pure ⟨true, oracle_count, meilisearch_count⟩

/-- Result dict of `incremental_sync`. -/
structure IncSyncRes where
  success : Bool
  changed_count : Nat
deriving Repr, DecidableEq

/-- `incremental_sync(table_name, primary_key, modified_column)`:
read the watermark, extract changed rows, upsert when any, then
unconditionally stamp the watermark with `datetime.now()` (the `now`
argument). Returns the result, the engine state after the call, and the
list of upsert calls issued. -/
def incremental_sync (fetch : String → Except PErr (List Row)) (ops : MeiliOps)
    (e : Engine) (table_name primary_key modified_column : String) (now : DT) :
    Except PErr (IncSyncRes × Engine) × List (List Row) :=
  let last_sync := get_last_sync_timestamp e table_name
  match extract_changed_records fetch table_name modified_column last_sync with
  | .error err => (.error err, [])
  | .ok changed_records =>
    let changed_count := changed_records.length
    if changed_count > 0 then
      let documents := transform_to_documents changed_records primary_key
      match ops.update_documents documents with
      | .error err => (.error err, [documents])
      | .ok _ =>
        (.ok (⟨true, changed_count⟩, save_last_sync_timestamp e table_name now), [documents])
    else
      (.ok (⟨true, changed_count⟩, save_last_sync_timestamp e table_name now), [])

/-- **C1** (spec-modelled: `persist_sync_state`/`load_sync_state` are not in
`src/`): for every table `t` and timestamp `ts`, after
`save_last_sync_timestamp(t, ts)`, `persist_sync_state()` writes the entire
watermark map, and a fresh engine that runs `load_sync_state()` on that file
has its map fully replaced by the persisted one, so
`get_last_sync_timestamp(t)` returns `ts`. -/
theorem c1_persistence_roundtrip (e : Engine) (t : String) (ts : DT)
    (hstate : e.ValidState) (hts : ts.Valid) :
    ∃ e2,
      load_sync_state SyncEngine.init
          (persist_sync_state (save_last_sync_timestamp e t ts)) = .ok e2 ∧
      get_last_sync_timestamp e2 t = some ts ∧
      e2.last_sync_timestamps = (save_last_sync_timestamp e t ts).last_sync_timestamps := by
  have hstate' : (save_last_sync_timestamp e t ts).ValidState := by
    intro p hp
    exact dictSet_valid hstate hts p hp
  refine ⟨_, load_persist_roundtrip hstate' SyncEngine.init, ?_, rfl⟩
  show get_last_sync_timestamp _ t = some ts
  simp [get_last_sync_timestamp, save_last_sync_timestamp, dictSet_find?_self]

/-- Witness for C1 at a concrete table and timestamp. -/
theorem c1_persistence_roundtrip_witness :
    ∃ e2,
      load_sync_state SyncEngine.init
          (persist_sync_state
            (save_last_sync_timestamp SyncEngine.init "users" ⟨2024, 1, 15, 10, 30, 0, 0⟩)) =
        .ok e2 ∧
      get_last_sync_timestamp e2 "users" = some ⟨2024, 1, 15, 10, 30, 0, 0⟩ ∧
      e2.last_sync_timestamps =
        (save_last_sync_timestamp SyncEngine.init "users"
          ⟨2024, 1, 15, 10, 30, 0, 0⟩).last_sync_timestamps :=
  c1_persistence_roundtrip SyncEngine.init "users" ⟨2024, 1, 15, 10, 30, 0, 0⟩
    (by intro p hp; simp [SyncEngine.init] at hp) (by decide)

/-! ## `full_sync_with_retry`

The wrapped `full_sync` call touches collaborators whose behaviour can
change between attempts, so the attempts are modelled by
`behavior : Nat → Except PErr FullSyncRes`, the outcome of the i-th
`full_sync` invocation (0-based). The embedding also returns the list of
`time.sleep` durations performed and the number of `full_sync`
invocations. -/

/-- Python `str(e)` on an exception value: its message. -/
def PErr.toMessage : PErr → String
  | .attributeError m => m
  | .valueError m => m
  | .typeError m => m
  | .runtime m => m

/-- Python `str(e)` on the stored `last_exception`: `str(None) == "None"`. -/
def strOfLastException : Option String → String
  | none => "None"
  | some e => e

/-- What `full_sync_with_retry` returns: either the spread of a successful
`full_sync` result with `retry_count`, or the structured failure dict. -/
inductive RetryReturn where
  | success (result : FullSyncRes) (retry_count : Nat)
  | failure (retry_count : Nat) (error : String) (index_name : String) (timestamp : String)
deriving Repr, DecidableEq

/-- One `while retry_count < max_retries` loop of `full_sync_with_retry`,
fuel-indexed (`fuel = max_retries.toNat - retry_count`, so fuel exhaustion
coincides with the loop condition failing). Accumulates the sleeps
performed and the number of `full_sync` calls made. -/
def fswrLoop (behavior : Nat → Except PErr FullSyncRes) (max_retries : Int)
    (index_name now_iso : String) :
    Nat → Nat → Option String → List Nat → Nat → RetryReturn × List Nat × Nat
  | 0, retry_count, last_exception, sleeps, calls =>
    (.failure retry_count (strOfLastException last_exception) index_name now_iso, sleeps, calls)
  | fuel + 1, retry_count, last_exception, sleeps, calls =>
    if (retry_count : Int) < max_retries then
      match behavior calls with
      | .ok result => (.success result retry_count, sleeps, calls + 1)
      | .error e =>
        let retry_count' := retry_count + 1
        if (retry_count' : Int) ≥ max_retries then
          (.failure retry_count' e.toMessage index_name now_iso, sleeps, calls + 1)
        else
          fswrLoop behavior max_retries index_name now_iso fuel retry_count'
            (some e.toMessage) (sleeps ++ [2 ^ (retry_count' - 1)]) (calls + 1)
    else
      (.failure retry_count (strOfLastException last_exception) index_name now_iso, sleeps, calls)

/-- `full_sync_with_retry(index_name, primary_key, recreate_index,
max_retries=3)`: run the retry loop from `retry_count = 0` with no stored
exception. -/
def full_sync_with_retry (behavior : Nat → Except PErr FullSyncRes) (max_retries : Int)
    (index_name now_iso : String) : RetryReturn × List Nat × Nat :=
  fswrLoop behavior max_retries index_name now_iso max_retries.toNat 0 none [] 0

/-- Characterization of the retry loop: starting at `retry_count = rc` with
`fuel = max_retries.toNat - rc` and the sleeps performed so far, the loop
makes between 1 and `max_retries.toNat - rc` further `full_sync` calls,
its sleep list is always `[2^0, 2^1, …, 2^(calls-2)]`, and if every
remaining attempt fails it ends with the structured failure carrying the
last error text. -/
theorem fswrLoop_char (behavior : Nat → Except PErr FullSyncRes) (m : Int)
    (idx now : String) (errF : Nat → PErr) :
    ∀ fuel rc lastE res sleeps calls,
      rc + fuel = m.toNat → rc < m.toNat →
      fswrLoop behavior m idx now fuel rc lastE
        ((List.range rc).map (2 ^ ·)) rc = (res, sleeps, calls) →
      rc < calls ∧ calls ≤ m.toNat ∧
      sleeps = (List.range (calls - 1)).map (2 ^ ·) ∧
      ((∀ i, rc ≤ i → i < m.toNat → behavior i = .error (errF i)) →
        res = .failure m.toNat (errF (m.toNat - 1)).toMessage idx now ∧ calls = m.toNat) := by
  intro fuel
  induction fuel with
  | zero =>
    intro rc lastE res sleeps calls hfuel hrc heq
    omega
  | succ fuel ih =>
    intro rc lastE res sleeps calls hfuel hrc heq
    have hlt : (rc : Int) < m := by omega
    rw [fswrLoop, if_pos hlt] at heq
    cases hb : behavior rc with
    | ok r =>
      simp only [hb] at heq
      injection heq with h1 h23
      injection h23 with h2 h3
      subst h1; subst h2; subst h3
      refine ⟨by omega, by omega, by simp, ?_⟩
      intro hall
      have hcontra := hall rc le_rfl hrc
      simp [hb] at hcontra
    | error e =>
      simp only [hb] at heq
      split at heq
      · next hge =>
        have hrc1 : rc + 1 = m.toNat := by omega
        injection heq with h1 h23
        injection h23 with h2 h3
        subst h1; subst h2; subst h3
        refine ⟨by omega, by omega, by simp, ?_⟩
        intro hall
        have hbe := hall rc le_rfl hrc
        rw [hb] at hbe
        injection hbe with hbe'
        constructor
        · rw [hrc1]
          have : m.toNat - 1 = rc := by omega
          rw [this, ← hbe']
        · omega
      · next hge =>
        have hsl : (List.range rc).map (2 ^ ·) ++ [2 ^ (rc + 1 - 1)] =
            (List.range (rc + 1)).map (2 ^ ·) := by
          simp [List.range_succ]
        rw [hsl] at heq
        have hrec := ih (rc + 1) (some e.toMessage) res sleeps calls
          (by omega) (by omega) heq
        obtain ⟨ha, hb2, hc, hd⟩ := hrec
        refine ⟨by omega, hb2, hc, ?_⟩
        intro hall
        exact hd (fun i hi1 hi2 => hall i (by omega) hi2)

/-! ## `full_sync_batch` -/

/-- One entry of `failed_batch_info`. -/
structure FailedBatchInfo where
  batch_number : Nat
  error : String
  record_count : Nat
deriving Repr, DecidableEq

/-- Result dict of `full_sync_batch`. -/
structure BatchRes where
  success : Bool
  total_records : Nat
  successful_records : Nat
  failed_batches : Nat
  failed_batch_info : List FailedBatchInfo
deriving Repr, DecidableEq

/-- The slices `documents[i:i+batch_size]` for `i in range(0, len, batch_size)`,
fuel-indexed (fuel = number of remaining documents suffices whenever
`batch_size ≥ 1`; the fuel-exhausted case is unreachable then). -/
def chunkAux (batch_size : Nat) : Nat → List Row → List (List Row)
  | _, [] => []
  | 0, l => [l]
  | fuel + 1, l => l.take batch_size :: chunkAux batch_size fuel (l.drop batch_size)

/-- The batches `full_sync_batch` iterates over. -/
def chunk (batch_size : Nat) (documents : List Row) : List (List Row) :=
  chunkAux batch_size documents.length documents

/-- The `for i in range(...)` loop body of `full_sync_batch`: try to insert
each batch, accumulate `successful_records`, `failed_batches` and
`failed_batch_info`, continuing after failures. `write n b` is what
`insert_documents_batch` does for the batch numbered `n` (1-based). -/
def batchLoop (write : Nat → List Row → Except PErr Unit) :
    List (List Row) → Nat → Nat → Nat → List FailedBatchInfo →
      Nat × Nat × List FailedBatchInfo
  | [], _, successful, failed, info => (successful, failed, info)
  | b :: bs, batch_number, successful, failed, info =>
    let bn := batch_number + 1
    match write bn b with
    | .ok _ => batchLoop write bs bn (successful + b.length) failed info
    | .error e => batchLoop write bs bn successful (failed + 1) (info ++ [⟨bn, e.toMessage, b.length⟩])

/-- `full_sync_batch(index_name, primary_key, batch_size=1000,
recreate_index=False)`. A zero `batch_size` makes Python's
`range(0, len, 0)` raise `ValueError`. Extraction happens outside any
`try`, so its failure propagates; each batch write is wrapped in
`try`/`except`. -/
def full_sync_batch (fetch : String → Except PErr (List Row))
    (ops : MeiliOps) (write : Nat → List Row → Except PErr Unit)
    (index_name primary_key : String) (batch_size : Nat) (recreate_index : Bool) :
    Except PErr BatchRes := do
  recreatePreamble ops recreate_index
  let data ← extract_from_oracle fetch index_name
  let documents := transform_to_documents data primary_key
  if batch_size = 0 then
    throw (.valueError "range() arg 3 must not be zero")
  else
    let (successful_records, failed_batches, failed_batch_info) :=
      batchLoop write (chunk batch_size documents) 0 0 0 []
    pure ⟨failed_batches == 0, documents.length, successful_records,
      failed_batches, failed_batch_info⟩

theorem chunkAux_join (batch_size : Nat) :
    ∀ fuel l, (chunkAux batch_size fuel l).flatten = l := by
  intro fuel
  induction fuel with
  | zero =>
    intro l
    cases l with
    | nil => rfl
    | cons a as => simp [chunkAux]
  | succ fuel ih =>
    intro l
    cases l with
    | nil => rfl
    | cons a as =>
      show (List.take batch_size (a :: as) :: chunkAux batch_size fuel
        (List.drop batch_size (a :: as))).flatten = a :: as
      simp [ih]

/-- The batches concatenate back to the document list: contiguous,
non-overlapping, nothing dropped. -/
theorem chunk_join (batch_size : Nat) (documents : List Row) :
    (chunk batch_size documents).flatten = documents :=
  chunkAux_join batch_size documents.length documents

theorem chunkAux_mem_length {batch_size : Nat} (hB : 0 < batch_size) :
    ∀ fuel l, l.length ≤ fuel →
      ∀ b ∈ chunkAux batch_size fuel l, b.length ≤ batch_size ∧ b ≠ [] := by
  intro fuel
  induction fuel with
  | zero =>
    intro l hl b hb
    cases l with
    | nil => simp [chunkAux] at hb
    | cons a as => simp at hl
  | succ fuel ih =>
    intro l hl b hb
    cases l with
    | nil => simp [chunkAux] at hb
    | cons a as =>
      rw [show chunkAux batch_size (fuel + 1) (a :: as) =
        List.take batch_size (a :: as) :: chunkAux batch_size fuel
          (List.drop batch_size (a :: as)) from rfl] at hb
      rcases List.mem_cons.mp hb with hb | hb
      · subst hb
        constructor
        · exact List.length_take_le batch_size (a :: as)
        · have : (List.take batch_size (a :: as)).length = min batch_size (a :: as).length := by
            simp
          intro hnil
          rw [hnil] at this
          simp at this
          omega
      · refine ih (List.drop batch_size (a :: as)) ?_ b hb
        simp only [List.length_drop, List.length_cons]
        simp only [List.length_cons] at hl
        omega

/-- Every batch is nonempty and no longer than `batch_size`. -/
theorem chunk_mem_length {batch_size : Nat} (hB : 0 < batch_size)
    (documents : List Row) :
    ∀ b ∈ chunk batch_size documents, b.length ≤ batch_size ∧ b ≠ [] :=
  chunkAux_mem_length hB documents.length documents le_rfl

theorem chunkAux_dropLast_length {batch_size : Nat} (hB : 0 < batch_size) :
    ∀ fuel l, l.length ≤ fuel →
      ∀ b ∈ (chunkAux batch_size fuel l).dropLast, b.length = batch_size := by
  intro fuel
  induction fuel with
  | zero =>
    intro l hl b hb
    cases l with
    | nil => simp [chunkAux] at hb
    | cons a as => simp at hl
  | succ fuel ih =>
    intro l hl b hb
    cases l with
    | nil => simp [chunkAux] at hb
    | cons a as =>
      rw [show chunkAux batch_size (fuel + 1) (a :: as) =
        List.take batch_size (a :: as) :: chunkAux batch_size fuel
          (List.drop batch_size (a :: as)) from rfl] at hb
      cases hrest : chunkAux batch_size fuel (List.drop batch_size (a :: as)) with
      | nil => rw [hrest] at hb; simp at hb
      | cons c cs =>
        rw [hrest, List.dropLast_cons_of_ne_nil (by simp)] at hb
        rcases List.mem_cons.mp hb with hb | hb
        · subst hb
          -- the tail chunks are nonempty, so `drop batch_size` is nonempty,
          -- so the list has more than `batch_size` elements
          have hdrop_ne : List.drop batch_size (a :: as) ≠ [] := by
            intro hnil
            rw [hnil] at hrest
            simp [chunkAux] at hrest
          have hlen : batch_size < (a :: as).length := by
            by_contra hcon
            exact hdrop_ne (List.drop_eq_nil_of_le (by omega))
          simp only [List.length_take, List.length_cons]
          simp only [List.length_cons] at hlen
          omega
        · rw [← hrest] at hb
          refine ih (List.drop batch_size (a :: as)) ?_ b hb
          simp only [List.length_drop, List.length_cons]
          simp only [List.length_cons] at hl
          omega

/-- Every batch except possibly the last has exactly `batch_size` records. -/
theorem chunk_dropLast_length {batch_size : Nat} (hB : 0 < batch_size)
    (documents : List Row) :
    ∀ b ∈ (chunk batch_size documents).dropLast, b.length = batch_size :=
  chunkAux_dropLast_length hB documents.length documents le_rfl

/-- Record count credited for an (index, batch) pair when its write
succeeds, zero otherwise. -/
def okRecordCount (write : Nat → List Row → Except PErr Unit) (p : Nat × List Row) : Nat :=
  match write p.1 p.2 with
  | .ok _ => p.2.length
  | .error _ => 0

/-- The `failed_batch_info` entry an (index, batch) pair produces, if its
write fails. -/
def failRecordOf (write : Nat → List Row → Except PErr Unit) (p : Nat × List Row) :
    Option FailedBatchInfo :=
  match write p.1 p.2 with
  | .ok _ => none
  | .error e => some ⟨p.1, e.toMessage, p.2.length⟩

/-- Unfolding equation for one iteration of the batch loop. -/
theorem batchLoop_cons (write : Nat → List Row → Except PErr Unit)
    (b : List Row) (bs : List (List Row)) (bn s f : Nat) (info : List FailedBatchInfo) :
    batchLoop write (b :: bs) bn s f info =
      match write (bn + 1) b with
      | .ok _ => batchLoop write bs (bn + 1) (s + b.length) f info
      | .error e => batchLoop write bs (bn + 1) s (f + 1)
          (info ++ [(⟨bn + 1, e.toMessage, b.length⟩ : FailedBatchInfo)]) := rfl

/-- Closed form of the batch loop: starting from batch number `bn` and
accumulators `s`, `f`, `info`, the loop adds the lengths of the batches
whose write succeeded, counts the failures, and appends one
`failed_batch_info` entry per failure in order. -/
theorem batchLoop_char (write : Nat → List Row → Except PErr Unit) :
    ∀ (cs : List (List Row)) (bn s f : Nat) (info : List FailedBatchInfo),
      batchLoop write cs bn s f info =
        (s + ((cs.enumFrom (bn + 1)).map (okRecordCount write)).sum,
         f + ((cs.enumFrom (bn + 1)).filterMap (failRecordOf write)).length,
         info ++ (cs.enumFrom (bn + 1)).filterMap (failRecordOf write)) := by
  intro cs
  induction cs with
  | nil => intro bn s f info; simp [batchLoop]
  | cons b bs ih =>
    intro bn s f info
    have henum : (b :: bs).enumFrom (bn + 1) = (bn + 1, b) :: bs.enumFrom (bn + 1 + 1) := rfl
    rw [henum]
    cases hw : write (bn + 1) b with
    | ok u =>
      rw [batchLoop_cons]
      simp only [hw]
      rw [ih]
      simp only [List.map_cons, List.filterMap_cons, List.sum_cons, okRecordCount,
        failRecordOf, hw, List.length_cons]
      rw [Nat.add_assoc]
    | error e =>
      rw [batchLoop_cons]
      simp only [hw]
      rw [ih]
      simp only [List.map_cons, List.filterMap_cons, List.sum_cons, okRecordCount,
        failRecordOf, hw, List.length_cons]
      simp only [Nat.zero_add, List.singleton_append]
      have hL : f + 1 +
            (List.filterMap (failRecordOf write) (List.enumFrom (bn + 1 + 1) bs)).length =
          f + ((List.filterMap (failRecordOf write) (List.enumFrom (bn + 1 + 1) bs)).length + 1) := by
        omega
      rw [hL, List.append_assoc, List.singleton_append]

/-- Successful record counts plus failed record counts add up to the total
record count, over any enumerated batch list. -/
theorem batch_sum_split (write : Nat → List Row → Except PErr Unit) :
    ∀ (cs : List (List Row)) (bn : Nat),
      ((cs.enumFrom bn).map (okRecordCount write)).sum +
        (((cs.enumFrom bn).filterMap (failRecordOf write)).map (·.record_count)).sum =
      (cs.map List.length).sum := by
  intro cs
  induction cs with
  | nil => intro bn; rfl
  | cons b bs ih =>
    intro bn
    have henum : (b :: bs).enumFrom bn = (bn, b) :: bs.enumFrom (bn + 1) := rfl
    rw [henum]
    cases hw : write bn b with
    | ok u =>
      simp only [List.map_cons, List.filterMap_cons, List.sum_cons, okRecordCount,
        failRecordOf, hw]
      rw [← ih (bn + 1)]
      omega
    | error e =>
      simp only [List.map_cons, List.filterMap_cons, List.sum_cons, okRecordCount,
        failRecordOf, hw]
      rw [← ih (bn + 1)]
      omega

/-- **C5**: for every extracted document list, every `batch_size > 0` and
every pattern of per-batch write outcomes, `full_sync_batch` partitions the
documents into contiguous non-overlapping batches of size `batch_size`
(final batch possibly shorter), continues past failed batches, and returns
a result with `total_records = R`,
`successful_records + Σ failed_batch_info[].record_count = R`,
`failed_batches = len(failed_batch_info)`,
`success = (failed_batches == 0)`, and 1-based contiguous batch numbers
(the failed-batch entries are exactly those of the 1-based enumeration of
the batches whose write failed). -/
theorem c5_full_sync_batch_accounting
    (fetch : String → Except PErr (List Row)) (ops : MeiliOps)
    (write : Nat → List Row → Except PErr Unit)
    (index_name primary_key : String) (batch_size : Nat) (rows : List Row)
    (hB : 0 < batch_size)
    (hfetch : fetch ("SELECT * FROM " ++ index_name) = .ok rows) :
    ∃ res, full_sync_batch fetch ops write index_name primary_key batch_size false = .ok res ∧
      (chunk batch_size rows).flatten = rows ∧
      (∀ b ∈ chunk batch_size rows, b.length ≤ batch_size ∧ b ≠ []) ∧
      (∀ b ∈ (chunk batch_size rows).dropLast, b.length = batch_size) ∧
      res.total_records = rows.length ∧
      res.successful_records + (res.failed_batch_info.map (·.record_count)).sum = rows.length ∧
      res.failed_batches = res.failed_batch_info.length ∧
      (res.success = true ↔ res.failed_batches = 0) ∧
      res.failed_batch_info = ((chunk batch_size rows).enumFrom 1).filterMap (failRecordOf write) := by
  have hne : ¬ batch_size = 0 := by omega
  have hrun : full_sync_batch fetch ops write index_name primary_key batch_size false =
      .ok ⟨(((chunk batch_size rows).enumFrom 1).filterMap (failRecordOf write)).length == 0,
        rows.length,
        (((chunk batch_size rows).enumFrom 1).map (okRecordCount write)).sum,
        (((chunk batch_size rows).enumFrom 1).filterMap (failRecordOf write)).length,
        ((chunk batch_size rows).enumFrom 1).filterMap (failRecordOf write)⟩ := by
    unfold full_sync_batch recreatePreamble extract_from_oracle transform_to_documents
    simp [hfetch, hne, batchLoop_char]
  refine ⟨_, hrun, chunk_join batch_size rows, chunk_mem_length hB rows,
    chunk_dropLast_length hB rows, rfl, ?_, rfl, ?_, rfl⟩
  · show (((chunk batch_size rows).enumFrom 1).map (okRecordCount write)).sum +
      ((((chunk batch_size rows).enumFrom 1).filterMap (failRecordOf write)).map
        (·.record_count)).sum = rows.length
    rw [batch_sum_split write (chunk batch_size rows) 1]
    rw [← List.length_flatten, chunk_join]
  · show ((((chunk batch_size rows).enumFrom 1).filterMap (failRecordOf write)).length == 0) =
        true ↔ _
    simp

/-- **C6**: for `max_retries ≥ 1`, `full_sync_with_retry` invokes
`full_sync` at most `max_retries` times; its sleep list is
`[2^0, 2^1, …]` — the sleep between failed attempts `k` and `k+1` is
`2^(k-1)` seconds — with one sleep fewer than attempts, so none after the
final attempt; and when every attempt fails it returns (without raising)
the structured failure with `retry_count = max_retries`, the last error
text, the index name and a timestamp. -/
theorem c6_retry_bound_and_backoff (behavior : Nat → Except PErr FullSyncRes)
    (errF : Nat → PErr) (max_retries : Int) (index_name now_iso : String)
    (h1 : 1 ≤ max_retries) :
    ∀ ret sleeps calls,
      full_sync_with_retry behavior max_retries index_name now_iso = (ret, sleeps, calls) →
      1 ≤ calls ∧ calls ≤ max_retries.toNat ∧
      sleeps = (List.range (calls - 1)).map (2 ^ ·) ∧
      ((∀ i, i < max_retries.toNat → behavior i = .error (errF i)) →
        ret = .failure max_retries.toNat (errF (max_retries.toNat - 1)).toMessage
          index_name now_iso ∧
        calls = max_retries.toNat ∧
        sleeps = (List.range (max_retries.toNat - 1)).map (2 ^ ·)) := by
  intro ret sleeps calls heq
  have h0 : (0 : Nat) < max_retries.toNat := by omega
  have hchar := fswrLoop_char behavior max_retries index_name now_iso errF
    max_retries.toNat 0 none ret sleeps calls (by omega) h0 heq
  obtain ⟨ha, hb, hc, hd⟩ := hchar
  refine ⟨by omega, hb, hc, ?_⟩
  intro hall
  obtain ⟨hret, hcalls⟩ := hd (fun i _ hi2 => hall i hi2)
  exact ⟨hret, hcalls, by rw [hc, hcalls]⟩

/-- Witness for C6: three attempts that all fail. -/
theorem c6_retry_bound_and_backoff_witness :
    1 ≤ 3 ∧ 3 ≤ (3 : Int).toNat ∧
    ([1, 2] : List Nat) = (List.range (3 - 1)).map (2 ^ ·) ∧
    ((∀ i, i < (3 : Int).toNat →
        (fun _ => (.error (.runtime "boom") : Except PErr FullSyncRes)) i =
          .error ((fun _ => PErr.runtime "boom") i)) →
      RetryReturn.failure 3 "boom" "users" "2024-01-15T10:30:00" =
        .failure (3 : Int).toNat ((fun _ => PErr.runtime "boom") ((3 : Int).toNat - 1)).toMessage
          "users" "2024-01-15T10:30:00" ∧
      3 = (3 : Int).toNat ∧
      ([1, 2] : List Nat) = (List.range ((3 : Int).toNat - 1)).map (2 ^ ·)) :=
  c6_retry_bound_and_backoff (fun _ => .error (.runtime "boom")) (fun _ => .runtime "boom")
    3 "users" "2024-01-15T10:30:00" (by decide)
    (.failure 3 "boom" "users" "2024-01-15T10:30:00") [1, 2] 3 (by decide)

/-- **C10**: with `max_retries ≤ 0` the loop body never runs:
`full_sync` is never invoked, nothing sleeps, and the returned failure dict
has `retry_count = 0` and `error = str(None) = "None"`. -/
theorem c10_nonpositive_max_retries (behavior : Nat → Except PErr FullSyncRes)
    (max_retries : Int) (index_name now_iso : String) (h : max_retries ≤ 0) :
    full_sync_with_retry behavior max_retries index_name now_iso =
      (.failure 0 "None" index_name now_iso, [], 0) := by
  unfold full_sync_with_retry
  have h0 : max_retries.toNat = 0 := by omega
  rw [h0]
  rfl

/-- Witness for C10 at `max_retries = 0`. -/
theorem c10_nonpositive_max_retries_witness :
    full_sync_with_retry (fun _ => .error (.runtime "boom")) 0 "users" "t" =
      (.failure 0 "None" "users" "t", [], 0) :=
  c10_nonpositive_max_retries (fun _ => .error (.runtime "boom")) 0 "users" "t" (by decide)

/-- Counterexample to **C4** as stated: an extraction failure inside
`full_sync_with_retry` IS retried. With a fetch that always raises,
every `full_sync` attempt fails with that extraction error, yet the loop
makes 3 calls (not 1), sleeps twice, and returns a structured failure
instead of propagating the exception. -/
theorem c4_extraction_retried_counterexample :
    full_sync_with_retry
      (fun _ => full_sync
        (fun _ => .error (.runtime "ORA-00942: table or view does not exist"))
        ⟨false, .ok (), .ok (), fun _ _ => .ok (), fun _ => .ok (), .ok 0⟩
        "users" "ID" false)
      3 "users" "2024-01-15T10:30:00" =
      (.failure 3 "ORA-00942: table or view does not exist" "users" "2024-01-15T10:30:00",
        [1, 2], 3) := by
  decide

-- Helper lemmas computing `full_sync`, `incremental_sync` and
-- `full_sync_batch` under fixed collaborator outcomes.

theorem full_sync_extract_error (fetch : String → Except PErr (List Row)) (ops : MeiliOps)
    (table pk : String) (e : PErr)
    (hfetch : fetch ("SELECT * FROM " ++ table) = .error e) :
    full_sync fetch ops table pk false = .error e := by
  unfold full_sync recreatePreamble extract_from_oracle
  simp [hfetch, Bind.bind, Except.bind, pure, Except.pure]

theorem full_sync_write_error (fetch : String → Except PErr (List Row)) (ops : MeiliOps)
    (table pk : String) (rows : List Row) (e : PErr)
    (hfetch : fetch ("SELECT * FROM " ++ table) = .ok rows)
    (hadd : ops.add_documents 0 rows = .error e) :
    full_sync fetch ops table pk false = .error e := by
  unfold full_sync recreatePreamble extract_from_oracle transform_to_documents
  simp [hfetch, hadd, Bind.bind, Except.bind, Functor.map, Except.map, pure, Except.pure]

theorem full_sync_all_ok (fetch : String → Except PErr (List Row)) (ops : MeiliOps)
    (table pk : String) (rows : List Row) (n : Nat)
    (hfetch : fetch ("SELECT * FROM " ++ table) = .ok rows)
    (hadd : ops.add_documents 0 rows = .ok ())
    (hstats : ops.stats_count = .ok n) :
    full_sync fetch ops table pk false = .ok ⟨true, rows.length, n⟩ := by
  unfold full_sync recreatePreamble extract_from_oracle transform_to_documents
  simp [hfetch, hadd, hstats, Bind.bind, Except.bind, Functor.map, Except.map, pure, Except.pure]

theorem incremental_sync_extract_error (fetch : String → Except PErr (List Row))
    (ops : MeiliOps) (eng : Engine) (table pk modified : String) (ts now : DT) (e : PErr)
    (hwm : get_last_sync_timestamp eng table = some ts)
    (hfetch : fetch (changedRecordsQuery table modified ts) = .error e) :
    incremental_sync fetch ops eng table pk modified now = (.error e, []) := by
  unfold incremental_sync extract_changed_records
  simp [hwm, hfetch]

theorem full_sync_batch_extract_error (fetch : String → Except PErr (List Row))
    (ops : MeiliOps) (write : Nat → List Row → Except PErr Unit)
    (index_name pk : String) (B : Nat) (e : PErr)
    (hfetch : fetch ("SELECT * FROM " ++ index_name) = .error e) :
    full_sync_batch fetch ops write index_name pk B false = .error e := by
  unfold full_sync_batch recreatePreamble extract_from_oracle
  simp [hfetch, Bind.bind, Except.bind, pure, Except.pure]

/-- **C9**: `full_sync`'s success flag reflects only the absence of an
exception — every non-raising call returns `success = true`, even when the
extracted source count differs from the target document count — and any
exception raised by extraction or by the write propagates unchanged. -/
theorem c9_full_sync_success_semantics :
    (∀ (fetch : String → Except PErr (List Row)) (ops : MeiliOps) (table pk : String)
      (recreate : Bool) (r : FullSyncRes),
      full_sync fetch ops table pk recreate = .ok r → r.success = true) ∧
    (∀ (fetch : String → Except PErr (List Row)) (ops : MeiliOps) (table pk : String)
      (rows : List Row) (n : Nat),
      fetch ("SELECT * FROM " ++ table) = .ok rows →
      ops.add_documents 0 rows = .ok () →
      ops.stats_count = .ok n →
      full_sync fetch ops table pk false = .ok ⟨true, rows.length, n⟩) ∧
    (∀ (fetch : String → Except PErr (List Row)) (ops : MeiliOps) (table pk : String)
      (e : PErr),
      fetch ("SELECT * FROM " ++ table) = .error e →
      full_sync fetch ops table pk false = .error e) ∧
    (∀ (fetch : String → Except PErr (List Row)) (ops : MeiliOps) (table pk : String)
      (rows : List Row) (e : PErr),
      fetch ("SELECT * FROM " ++ table) = .ok rows →
      ops.add_documents 0 rows = .error e →
      full_sync fetch ops table pk false = .error e) := by
  refine ⟨?_, ?_, ?_, ?_⟩
  · intro fetch ops table pk recreate r h
    unfold full_sync at h
    cases hpre : recreatePreamble ops recreate with
    | error e => rw [hpre] at h; simp [Bind.bind, Except.bind] at h
    | ok u =>
      rw [hpre] at h
      cases hext : extract_from_oracle fetch table with
      | error e => rw [hext] at h; simp [Bind.bind, Except.bind] at h
      | ok rows =>
        rw [hext] at h
        simp only [Bind.bind, Except.bind, transform_to_documents] at h
        cases hadd : ops.add_documents 0 rows with
        | error e =>
          rw [hadd] at h
          simp [Functor.map, Except.map] at h
        | ok u2 =>
          rw [hadd] at h
          cases hstats : ops.stats_count with
          | error e =>
            rw [hstats] at h
            simp [Functor.map, Except.map] at h
          | ok n =>
            rw [hstats] at h
            simp [Functor.map, Except.map, pure, Except.pure] at h
            rw [← h]
  · intro fetch ops table pk rows n h1 h2 h3
    exact full_sync_all_ok fetch ops table pk rows n h1 h2 h3
  · intro fetch ops table pk e h
    exact full_sync_extract_error fetch ops table pk e h
  · intro fetch ops table pk rows e h1 h2
    exact full_sync_write_error fetch ops table pk rows e h1 h2

/-- Witness for C9: a non-raising run whose source count (3) differs from
the target count (7) still returns `success = true`; a failing extraction
propagates unchanged. -/
theorem c9_full_sync_success_semantics_witness :
    full_sync (fun _ => .ok [⟨[("ID", "1")]⟩, ⟨[("ID", "2")]⟩, ⟨[("ID", "3")]⟩])
      ⟨false, .ok (), .ok (), fun _ _ => .ok (), fun _ => .ok (), .ok 7⟩
      "users" "ID" false = .ok ⟨true, 3, 7⟩ ∧
    full_sync (fun _ => .error (.runtime "connection refused"))
      ⟨false, .ok (), .ok (), fun _ _ => .ok (), fun _ => .ok (), .ok 7⟩
      "users" "ID" false = .error (.runtime "connection refused") :=
  ⟨c9_full_sync_success_semantics.2.1
      (fun _ => .ok [⟨[("ID", "1")]⟩, ⟨[("ID", "2")]⟩, ⟨[("ID", "3")]⟩])
      ⟨false, .ok (), .ok (), fun _ _ => .ok (), fun _ => .ok (), .ok 7⟩
      "users" "ID" _ 7 rfl rfl rfl,
    c9_full_sync_success_semantics.2.2.1
      (fun _ => .error (.runtime "connection refused"))
      ⟨false, .ok (), .ok (), fun _ _ => .ok (), fun _ => .ok (), .ok 7⟩
      "users" "ID" (.runtime "connection refused") rfl⟩

/-- **C4** (amended): extraction failures are never retried by `full_sync`,
`incremental_sync` or `full_sync_batch` — each propagates the extraction
error unchanged to its caller — but inside `full_sync_with_retry` an
extraction failure is caught and retried like any other failure of
`full_sync`: up to `max_retries` attempts are made and, if all fail, a
structured failure result is returned instead of the error propagating. -/
theorem c4_extraction_failure_policy :
    (∀ (fetch : String → Except PErr (List Row)) (ops : MeiliOps) (table pk : String)
      (e : PErr), fetch ("SELECT * FROM " ++ table) = .error e →
      full_sync fetch ops table pk false = .error e) ∧
    (∀ (fetch : String → Except PErr (List Row)) (ops : MeiliOps) (eng : Engine)
      (table pk modified : String) (ts now : DT) (e : PErr),
      get_last_sync_timestamp eng table = some ts →
      fetch (changedRecordsQuery table modified ts) = .error e →
      incremental_sync fetch ops eng table pk modified now = (.error e, [])) ∧
    (∀ (fetch : String → Except PErr (List Row)) (ops : MeiliOps)
      (write : Nat → List Row → Except PErr Unit) (index_name pk : String) (B : Nat)
      (e : PErr), fetch ("SELECT * FROM " ++ index_name) = .error e →
      full_sync_batch fetch ops write index_name pk B false = .error e) ∧
    (∀ (behavior : Nat → Except PErr FullSyncRes) (errF : Nat → PErr) (m : Int)
      (idx niso : String), 1 ≤ m →
      (∀ i, i < m.toNat → behavior i = .error (errF i)) →
      ∀ ret sleeps calls,
        full_sync_with_retry behavior m idx niso = (ret, sleeps, calls) →
        ret = .failure m.toNat (errF (m.toNat - 1)).toMessage idx niso ∧
        calls = m.toNat) := by
  refine ⟨full_sync_extract_error, incremental_sync_extract_error,
    full_sync_batch_extract_error, ?_⟩
  intro behavior errF m idx niso h1 hall ret sleeps calls heq
  have h0 : (0 : Nat) < m.toNat := by omega
  have hchar := fswrLoop_char behavior m idx niso errF m.toNat 0 none ret sleeps calls
    (by omega) h0 heq
  exact hchar.2.2.2 (fun i _ hi2 => hall i hi2)

/-- Witness for the amended C4, with an extraction error that fails every
attempt of a 3-attempt retry. -/
theorem c4_extraction_failure_policy_witness :
    full_sync (fun _ => .error (.runtime "ORA-00942"))
      ⟨false, .ok (), .ok (), fun _ _ => .ok (), fun _ => .ok (), .ok 0⟩
      "users" "ID" false = .error (.runtime "ORA-00942") ∧
    (RetryReturn.failure (3 : Int).toNat
        ((fun _ => PErr.runtime "ORA-00942") ((3 : Int).toNat - 1)).toMessage "users" "t" =
      .failure (3 : Int).toNat "ORA-00942" "users" "t" ∧
      (3 : Nat) = (3 : Int).toNat) :=
  ⟨c4_extraction_failure_policy.1 (fun _ => .error (.runtime "ORA-00942"))
      ⟨false, .ok (), .ok (), fun _ _ => .ok (), fun _ => .ok (), .ok 0⟩
      "users" "ID" (.runtime "ORA-00942") rfl,
    by
      have h := c4_extraction_failure_policy.2.2.2
        (fun _ => .error (.runtime "ORA-00942")) (fun _ => .runtime "ORA-00942")
        3 "users" "t" (by decide) (fun i _ => rfl)
        (.failure 3 "ORA-00942" "users" "t") [1, 2] 3 (by decide)
      exact ⟨h.1.symm, h.2.symm⟩⟩

/-- **C3** (evaluating the code at the failing input): when a table has no
stored watermark, `incremental_sync` passes `None` to
`extract_changed_records`, whose first statement
`last_sync_timestamp.strftime(...)` raises `AttributeError`; no extraction
query is issued and the call never returns a result. -/
theorem c3_missing_watermark_raises (fetch : String → Except PErr (List Row))
    (ops : MeiliOps) (eng : Engine) (table pk modified : String) (now : DT)
    (h : get_last_sync_timestamp eng table = none) :
    incremental_sync fetch ops eng table pk modified now =
      (.error (.attributeError "'NoneType' object has no attribute 'strftime'"), []) := by
  unfold incremental_sync extract_changed_records
  simp [h]

/-- Witness for C3: a freshly constructed engine has no watermark for
`users`, and the first incremental sync raises `AttributeError`. -/
theorem c3_missing_watermark_raises_witness :
    incremental_sync (fun _ => .ok []) default SyncEngine.init "users" "ID" "MODIFIED_AT"
        ⟨2024, 1, 15, 10, 0, 0, 0⟩ =
      (.error (.attributeError "'NoneType' object has no attribute 'strftime'"), []) :=
  c3_missing_watermark_raises (fun _ => .ok []) default SyncEngine.init
    "users" "ID" "MODIFIED_AT" ⟨2024, 1, 15, 10, 0, 0, 0⟩ rfl

/-- **C7**: with a stored watermark and no row matching the modified-since
predicate, `incremental_sync` returns `changed_count = 0`, issues no
upsert, and still overwrites the stored watermark with the sampled current
time `now`, which (the wall clock having advanced) is later than the
watermark held before the call. -/
theorem c7_zero_change_advances_watermark (fetch : String → Except PErr (List Row))
    (ops : MeiliOps) (eng : Engine) (table pk modified : String) (before now : DT)
    (hwm : get_last_sync_timestamp eng table = some before)
    (hfetch : fetch (changedRecordsQuery table modified before) = .ok [])
    (hclock : DT.lt before now) :
    incremental_sync fetch ops eng table pk modified now =
      (.ok (⟨true, 0⟩, save_last_sync_timestamp eng table now), []) ∧
    get_last_sync_timestamp (save_last_sync_timestamp eng table now) table = some now ∧
    DT.lt before now := by
  refine ⟨?_, get_after_save eng table now, hclock⟩
  unfold incremental_sync extract_changed_records
  simp [hwm, hfetch]

/-- Witness for C7 at a concrete engine, watermark and clock sample. -/
theorem c7_zero_change_advances_watermark_witness :
    incremental_sync (fun _ => .ok []) default
        (save_last_sync_timestamp SyncEngine.init "users" ⟨2024, 1, 15, 10, 0, 0, 0⟩)
        "users" "ID" "MODIFIED_AT" ⟨2024, 1, 15, 12, 0, 0, 0⟩ =
      (.ok (⟨true, 0⟩, save_last_sync_timestamp
          (save_last_sync_timestamp SyncEngine.init "users" ⟨2024, 1, 15, 10, 0, 0, 0⟩)
          "users" ⟨2024, 1, 15, 12, 0, 0, 0⟩), []) ∧
    get_last_sync_timestamp (save_last_sync_timestamp
        (save_last_sync_timestamp SyncEngine.init "users" ⟨2024, 1, 15, 10, 0, 0, 0⟩)
        "users" ⟨2024, 1, 15, 12, 0, 0, 0⟩) "users" = some ⟨2024, 1, 15, 12, 0, 0, 0⟩ ∧
    DT.lt ⟨2024, 1, 15, 10, 0, 0, 0⟩ ⟨2024, 1, 15, 12, 0, 0, 0⟩ :=
  c7_zero_change_advances_watermark (fun _ => .ok []) default
    (save_last_sync_timestamp SyncEngine.init "users" ⟨2024, 1, 15, 10, 0, 0, 0⟩)
    "users" "ID" "MODIFIED_AT" ⟨2024, 1, 15, 10, 0, 0, 0⟩ ⟨2024, 1, 15, 12, 0, 0, 0⟩
    (by decide) rfl (by decide)

/-- Witness for C5: six records, batch size 3, the write of batch 2
failing. -/
theorem c5_full_sync_batch_accounting_witness :
    ∃ res,
      full_sync_batch
        (fun _ => .ok [⟨[("ID", "1")]⟩, ⟨[("ID", "2")]⟩, ⟨[("ID", "3")]⟩,
          ⟨[("ID", "4")]⟩, ⟨[("ID", "5")]⟩, ⟨[("ID", "6")]⟩])
        default (fun n _ => if n = 2 then .error (.runtime "payload too large") else .ok ())
        "users" "ID" 3 false = .ok res ∧
      res.total_records = 6 ∧
      res.successful_records + (res.failed_batch_info.map (·.record_count)).sum = 6 ∧
      res.failed_batches = res.failed_batch_info.length ∧
      (res.success = true ↔ res.failed_batches = 0) := by
  obtain ⟨res, hrun, hjoin, hmem, hlast, ht, hacc, hfb, hsucc, hinfo⟩ :=
    c5_full_sync_batch_accounting
      (fun _ => .ok [⟨[("ID", "1")]⟩, ⟨[("ID", "2")]⟩, ⟨[("ID", "3")]⟩,
        ⟨[("ID", "4")]⟩, ⟨[("ID", "5")]⟩, ⟨[("ID", "6")]⟩])
      default (fun n _ => if n = 2 then .error (.runtime "payload too large") else .ok ())
      "users" "ID" 3
      [⟨[("ID", "1")]⟩, ⟨[("ID", "2")]⟩, ⟨[("ID", "3")]⟩,
        ⟨[("ID", "4")]⟩, ⟨[("ID", "5")]⟩, ⟨[("ID", "6")]⟩]
      (by decide) rfl
  exact ⟨res, hrun, ht, hacc, hfb, hsucc⟩

/-! ## Scheduler (`src/scheduler.py`)

`Scheduler.__init__(sync_engine, interval_seconds)` stores only the engine,
the interval and the run/stop bookkeeping; `Scheduler._run` loops
`self.sync_engine.incremental_sync()` — a call with NO arguments — and then
waits on the stop event with `timeout=interval_seconds`. The embedding
records the attribute list bound at construction, the argument list of the
loop's call, and Python's required-positional-argument check. -/

/-- The parameters of `SyncEngine.incremental_sync(self, table_name,
primary_key, modified_column)` that have no default value. -/
def incremental_sync_required_params : List String :=
  ["table_name", "primary_key", "modified_column"]

/-- The instance attributes `Scheduler.__init__` assigns. -/
def scheduler_init_attributes : List String :=
  ["sync_engine", "interval_seconds", "_running", "_thread", "_stop_event"]

/-- The argument list of the call `self.sync_engine.incremental_sync()` in
`Scheduler._run`. -/
def scheduler_run_call_args : List String := []

/-- The required parameters a Python call leaves unsupplied. -/
def pythonCallMissing (required provided : List String) : List String :=
  required.filter (fun p => ! provided.contains p)

/-- Python call semantics: a call whose required positional parameters are
not all supplied raises `TypeError` before the body runs. -/
def pythonCallOutcome (required provided : List String) : Except PErr Unit :=
  if pythonCallMissing required provided = [] then .ok ()
  else .error (.typeError
    "incremental_sync() missing 3 required positional arguments: 'table_name', 'primary_key', and 'modified_column'")

/-- How far one iteration of `Scheduler._run`'s loop body gets: the
zero-argument `incremental_sync` call. -/
def scheduler_loop_iteration : Except PErr Unit :=
  pythonCallOutcome incremental_sync_required_params scheduler_run_call_args

/-- **C2** (evaluating the code at the failing input): `Scheduler.__init__`
binds no table name, primary key or modified-time column — none of
`incremental_sync`'s required parameters is among the stored attributes —
and the loop body's zero-argument call leaves all three required
parameters missing, so against the real `SyncEngine` every iteration
raises `TypeError` instead of performing an incremental sync. -/
theorem c2_scheduler_loop_call_type_error :
    pythonCallMissing incremental_sync_required_params scheduler_run_call_args =
      ["table_name", "primary_key", "modified_column"] ∧
    scheduler_loop_iteration = .error (.typeError
      "incremental_sync() missing 3 required positional arguments: 'table_name', 'primary_key', and 'modified_column'") ∧
    scheduler_init_attributes.filter
      (fun a => incremental_sync_required_params.contains a) = [] := by
  exact ⟨rfl, rfl, rfl⟩

/-! ## CronScheduler (`src/scheduler.py`) -/

/-- `datetime.replace(hour=h)`: Python validates the new hour on every
`replace`. -/
def replaceHourChecked (d : DT) (h : Nat) : Except PErr DT :=
  if h ≤ 23 then .ok { d with hour := h }
  else .error (.valueError "hour must be in 0..23")

/-- `datetime.replace(minute=mi, ...)` (seconds/microseconds already
zeroed by the caller): Python validates the new minute. -/
def replaceMinuteChecked (d : DT) (mi : Nat) : Except PErr DT :=
  if mi ≤ 59 then .ok { d with minute := mi }
  else .error (.valueError "minute must be in 0..59")

/-- `self.minute.startswith("*/")`. -/
def startsWithSlashStar (s : String) : Bool :=
  match s.data with
  | '*' :: '/' :: _ => true
  | _ => false

/-- Python `int(text)` restricted to plain decimal digit strings (the form
a `*/N` cron field carries); anything else raises `ValueError`, modelled
as `none`. -/
def intOfChars (cs : List Char) : Option Nat :=
  if cs ≠ [] ∧ cs.all isDig then
    some (cs.foldl (fun acc c => acc * 10 + dVal c) 0)
  else none

/-- `CronScheduler.get_next_run_time`, with the parsed minute field of the
cron expression and the sampled `datetime.now()` passed explicitly. -/
def get_next_run_time (minuteField : String) (now : DT) : Except PErr DT :=
  if startsWithSlashStar minuteField then
    match intOfChars (minuteField.data.drop 2) with
    | none => .error (.valueError "invalid literal for int() with base 10")
    | some interval =>
      if interval = 0 then
        .error (.runtime "ZeroDivisionError: integer division or modulo by zero")
      else
        let next_minute := (now.minute / interval + 1) * interval
        if next_minute ≥ 60 then
          replaceHourChecked { now with minute := 0, second := 0, microsecond := 0 }
            (now.hour + 1)
        else
          replaceMinuteChecked { now with second := 0, microsecond := 0 } next_minute
  else
    replaceMinuteChecked { now with second := 0, microsecond := 0 } (now.minute + 1)

/-- Counterexample to **C8** as stated: across the end of a day the `*/N`
path does not roll over. At 23:45 with `*/30` the computed minute reaches
60, the code calls `replace(hour=24)`, and Python raises `ValueError`
instead of returning 00:00 of the next day. -/
theorem c8_day_rollover_counterexample :
    get_next_run_time "*/30" ⟨2024, 1, 15, 23, 45, 0, 0⟩ =
      .error (.valueError "hour must be in 0..23") := by
  rfl

/-- The `*/N` fire time the code computes on the non-crashing paths: the
next multiple of `N` within the hour, else minute 0 of hour+1. -/
def cronNextFire (N : Nat) (now : DT) : DT :=
  let nm := (now.minute / N + 1) * N
  if nm ≥ 60 then { now with hour := now.hour + 1, minute := 0, second := 0, microsecond := 0 }
  else { now with minute := nm, second := 0, microsecond := 0 }

/-- The hour-and-above part of the mixed-radix key. -/
def hourBlock (d : DT) : Nat := d.hour + 24 * (d.day + 32 * (d.month + 13 * d.year))

theorem key_decompose (d : DT) :
    d.key = d.microsecond + 1000000 * d.second + 60000000 * d.minute +
      3600000000 * hourBlock d := by
  unfold DT.key hourBlock
  ring

theorem lt_next_multiple {N m : Nat} (hN : 0 < N) : m < (m / N + 1) * N := by
  have h := Nat.div_add_mod m N
  have hmod := Nat.mod_lt m hN
  have hexp : (m / N + 1) * N = N * (m / N) + N := by ring
  omega

theorem next_multiple_le {N m k : Nat} (hk : m < N * k) :
    (m / N + 1) * N ≤ N * k := by
  have h1 : m / N + 1 ≤ k := by
    by_contra hcon
    have hk2 : k ≤ m / N := by omega
    have h3 : N * k ≤ N * (m / N) := Nat.mul_le_mul_left N hk2
    have h2 := Nat.div_add_mod m N
    omega
  have hexp : (m / N + 1) * N = N * (m / N + 1) := by ring
  rw [hexp]
  exact Nat.mul_le_mul_left N h1

/-- **C8** (amended): for a `*/N` minute field (`N ≥ 1`) and a valid
current time, `get_next_run_time` correctly computes the next fire time —
the earliest strictly-future time with seconds and microseconds zero whose
minute is a multiple of `N`, taking minute 0 of the following hour when
the computed minute reaches 60 — PROVIDED the rollover does not cross the
end of a day (`now.hour < 23`, or no rollover happens); in the excluded
case `replace(hour=24)` raises `ValueError` (see the counterexample). -/
theorem c8_cron_next_run_time (minuteField : String) (N : Nat) (now : DT)
    (hpre : startsWithSlashStar minuteField = true)
    (hint : intOfChars (minuteField.data.drop 2) = some N)
    (hN : 1 ≤ N) (hvalid : now.Valid)
    (hroll : (now.minute / N + 1) * N < 60 ∨ now.hour < 23) :
    get_next_run_time minuteField now = .ok (cronNextFire N now) ∧
    (cronNextFire N now).second = 0 ∧
    (cronNextFire N now).microsecond = 0 ∧
    N ∣ (cronNextFire N now).minute ∧
    DT.lt now (cronNextFire N now) ∧
    (∀ d : DT, d.Valid → d.second = 0 → d.microsecond = 0 → N ∣ d.minute →
      DT.lt now d → ¬ DT.lt d (cronNextFire N now)) := by
  obtain ⟨hy1, hy2, hm1, hm2, hd1, hd2, hh, hmi, hse, hu⟩ := hvalid
  have hN0 : ¬ N = 0 := by omega
  by_cases hnm : (now.minute / N + 1) * N ≥ 60
  · -- rollover branch: the next fire is minute 0 of hour + 1
    have hhour : now.hour < 23 := by
      rcases hroll with hroll | hroll
      · omega
      · exact hroll
    have hfire : cronNextFire N now =
        { now with hour := now.hour + 1, minute := 0, second := 0, microsecond := 0 } := by
      unfold cronNextFire
      rw [if_pos hnm]
    have hrun : get_next_run_time minuteField now = .ok (cronNextFire N now) := by
      unfold get_next_run_time replaceHourChecked
      rw [hfire]
      simp only [hpre, if_pos, hint]
      rw [if_neg hN0, if_pos hnm, if_pos (by omega : now.hour + 1 ≤ 23)]
    have hhb : hourBlock (cronNextFire N now) = hourBlock now + 1 := by
      rw [hfire]
      simp [hourBlock]
      omega
    have hkey : (cronNextFire N now).key =
        3600000000 * (hourBlock now + 1) := by
      rw [key_decompose, hhb, hfire]
      simp
    refine ⟨hrun, by rw [hfire], by rw [hfire], by rw [hfire]; exact ⟨0, by simp⟩, ?_, ?_⟩
    · show now.key < (cronNextFire N now).key
      rw [hkey, key_decompose now]
      omega
    · intro d hdv hs hu' hdvd hltd
      obtain ⟨k, hk⟩ := hdvd
      obtain ⟨_, _, _, _, _, _, hdh, hdmi, hdse, hdu⟩ := hdv
      show ¬ d.key < (cronNextFire N now).key
      rw [hkey]
      rw [show DT.lt now d ↔ now.key < d.key from Iff.rfl] at hltd
      rw [key_decompose now, key_decompose d, hs, hu'] at *
      rcases Nat.lt_trichotomy (hourBlock d) (hourBlock now) with hcmp | hcmp | hcmp
      · omega
      · have hdmin_gt : now.minute < d.minute := by omega
        have hnmle : (now.minute / N + 1) * N ≤ N * k := by
          refine next_multiple_le ?_
          rw [← hk]
          exact hdmin_gt
        rw [← hk] at hnmle
        omega
      · omega
  · -- within-hour branch: the next fire is the next multiple of N
    push_neg at hnm
    have hfire : cronNextFire N now =
        { now with minute := (now.minute / N + 1) * N, second := 0, microsecond := 0 } := by
      unfold cronNextFire
      rw [if_neg (by omega)]
    have hrun : get_next_run_time minuteField now = .ok (cronNextFire N now) := by
      unfold get_next_run_time replaceMinuteChecked
      rw [hfire]
      simp only [hpre, if_pos, hint]
      rw [if_neg hN0, if_neg (by omega : ¬ (now.minute / N + 1) * N ≥ 60),
        if_pos (by omega : (now.minute / N + 1) * N ≤ 59)]
    have hhb : hourBlock (cronNextFire N now) = hourBlock now := by
      rw [hfire]
      rfl
    have hmin_lt : now.minute < (now.minute / N + 1) * N := lt_next_multiple hN
    have hkey : (cronNextFire N now).key =
        60000000 * ((now.minute / N + 1) * N) + 3600000000 * hourBlock now := by
      rw [key_decompose, hhb, hfire]
      simp
    refine ⟨hrun, by rw [hfire], by rw [hfire], by rw [hfire]; exact ⟨now.minute / N + 1, by ring⟩,
      ?_, ?_⟩
    · show now.key < (cronNextFire N now).key
      rw [hkey, key_decompose now]
      omega
    · intro d hdv hs hu' hdvd hltd
      obtain ⟨k, hk⟩ := hdvd
      obtain ⟨_, _, _, _, _, _, hdh, hdmi, hdse, hdu⟩ := hdv
      show ¬ d.key < (cronNextFire N now).key
      rw [hkey]
      rw [show DT.lt now d ↔ now.key < d.key from Iff.rfl] at hltd
      rw [key_decompose now, key_decompose d, hs, hu'] at *
      rcases Nat.lt_trichotomy (hourBlock d) (hourBlock now) with hcmp | hcmp | hcmp
      · omega
      · have hdmin_gt : now.minute < d.minute := by omega
        have hnmle : (now.minute / N + 1) * N ≤ N * k := by
          refine next_multiple_le ?_
          rw [← hk]
          exact hdmin_gt
        rw [← hk] at hnmle
        omega
      · omega

/-- Witness for the amended C8: `*/5` at 10:07:30 fires next at 10:10:00. -/
theorem c8_cron_next_run_time_witness :
    get_next_run_time "*/5" ⟨2024, 1, 15, 10, 7, 30, 123⟩ =
      .ok (cronNextFire 5 ⟨2024, 1, 15, 10, 7, 30, 123⟩) ∧
    (cronNextFire 5 ⟨2024, 1, 15, 10, 7, 30, 123⟩).second = 0 ∧
    (cronNextFire 5 ⟨2024, 1, 15, 10, 7, 30, 123⟩).microsecond = 0 ∧
    5 ∣ (cronNextFire 5 ⟨2024, 1, 15, 10, 7, 30, 123⟩).minute ∧
    DT.lt ⟨2024, 1, 15, 10, 7, 30, 123⟩ (cronNextFire 5 ⟨2024, 1, 15, 10, 7, 30, 123⟩) ∧
    (∀ d : DT, d.Valid → d.second = 0 → d.microsecond = 0 → 5 ∣ d.minute →
      DT.lt ⟨2024, 1, 15, 10, 7, 30, 123⟩ d →
      ¬ DT.lt d (cronNextFire 5 ⟨2024, 1, 15, 10, 7, 30, 123⟩)) :=
  c8_cron_next_run_time "*/5" 5 ⟨2024, 1, 15, 10, 7, 30, 123⟩ rfl rfl (by decide)
    (by decide) (Or.inl (by decide))
